import Mathlib

/-!
Verification of the `@uswriting/exiftool` WASI host layer and its public API
(`parseMetadata` / `writeMetadata`).

The public API layer (argument-vector construction, options handling, result
interpretation) is embedded directly from the TypeScript source.  The WASI core
(virtual filesystem, line buffer, syscall dispatcher, `start`) is not part of
the given sources; those components are modelled from the specification, and
each such definition carries a doc comment starting `Modelled from the spec:`.
-/

set_option autoImplicit false

namespace ExifWasi

/-! ## Virtual filesystem (spec §4.1, §3 Node) -/

/-- Modelled from the spec: a VFS node is either a file holding byte content
or a directory (the `MemoryFileSystem` implementation is not in the sources). -/
inductive VNode (α : Type) where
  | file (content : α)
  | dir
  deriving DecidableEq

/-- Modelled from the spec: the in-memory tree of named nodes, kept as an
association list from absolute path to node; newest entries are in front. -/
structure MemoryFileSystem (α : Type) where
  entries : List (String × VNode α)
  deriving DecidableEq

/-- Modelled from the spec: the single error kind `addFile` can raise. -/
inductive FSError where
  | invalidPath
  deriving DecidableEq

/-- Modelled from the spec: `lookup(path)` returns the node at `path` or a
not-found indication; never throws for missing paths. -/
def MemoryFileSystem.lookup {α : Type} (fs : MemoryFileSystem α) (p : String) :
    Option (VNode α) :=
  (fs.entries.find? (fun e => e.1 = p)).map (fun e => e.2)

/-- Modelled from the spec: a path is absolute when it starts with a slash. -/
def isAbsolutePath (p : String) : Bool := p.data.head? = some '/'

/-- Split a character list on a separator character; the segments between
separators, in order. -/
def splitOnChar (sep : Char) : List Char → List (List Char)
  | [] => [[]]
  | c :: cs =>
    let r := splitOnChar sep cs
    if c = sep then [] :: r
    else
      match r with
      | [] => [[c]]
      | l :: ls => (c :: l) :: ls

/-- Join segments with a slash between consecutive segments. -/
def joinSlash : List (List Char) → List Char
  | [] => []
  | [l] => l
  | l :: ls => l ++ '/' :: joinSlash ls

/-- Modelled from the spec: the intermediate directory paths that
`addFile` creates implicitly, i.e. the proper slash-separated ancestors of
`p` below the root. -/
def intermediateDirs (p : String) : List String :=
  let parts := (splitOnChar '/' p.data).filter (fun l => l ≠ [])
  (List.range (parts.length - 1)).map
    (fun i => String.mk ('/' :: joinSlash (parts.take (i + 1))))

/-- Modelled from the spec: `addFile(path, content)` inserts or replaces a
file node; creates intermediate directories implicitly; fails with
`InvalidPathError` if `path` is not absolute or collides with an existing
directory node. -/
def MemoryFileSystem.addFile {α : Type} (fs : MemoryFileSystem α) (p : String) (c : α) :
    Except FSError (MemoryFileSystem α) :=
  if isAbsolutePath p = false then .error .invalidPath
  else
    match fs.lookup p with
    | some .dir => .error .invalidPath
    | _ => .ok ⟨(p, VNode.file c) :: (intermediateDirs p).map (fun d => (d, VNode.dir))
                 ++ fs.entries⟩

/-- Modelled from the spec (§6 "File seeding"): the constructor seeds the
filesystem with a mapping from absolute virtual path to initial byte content,
each seeded path holding that content as a file node. -/
def MemoryFileSystem.ofSeed {α : Type} (seed : List (String × α)) : MemoryFileSystem α :=
  ⟨seed.map (fun pc => (pc.1, VNode.file pc.2))⟩

/-! ## Standard-stream line buffer (spec §3 Standard-Stream Buffer) -/

/-- Modelled from the spec: split a character stream into the completed lines
(terminated by a newline, returned without it) and the trailing incomplete
fragment. -/
def splitLines : List Char → List (List Char) × List Char
  | [] => ([], [])
  | c :: cs =>
    let r := splitLines cs
    if c = '\n' then ([] :: r.1, r.2)
    else
      match r.1 with
      | [] => ([], c :: r.2)
      | l :: ls => ((c :: l) :: ls, r.2)

/-- Modelled from the spec: deliver one chunk to the line buffer holding the
pending partial line `pending`; returns the lines flushed to the sink, in
order, and the new pending fragment. -/
def feed (pending chunk : String) : List String × String :=
  let r := splitLines (pending.data ++ chunk.data)
  (r.1.map (fun l => String.mk l), String.mk r.2)

/-- Modelled from the spec: deliver a sequence of chunks to a fresh line
buffer, accumulating every line flushed to the sink and the final pending
fragment. -/
def feedAll (chunks : List String) : List String × String :=
  chunks.foldl (fun acc c => ((feed acc.2 c).1.foldl (fun ls l => ls ++ [l]) acc.1,
                              (feed acc.2 c).2)) ([], "")

/-! ## Dispatcher: feature composition and host-fatal errors (spec §4.2-§4.3, §7) -/

/-- Modelled from the spec: a provider's contributed syscall table, a list of
(ABI function name, implementation) registrations. -/
def SyscallTable (α : Type) : Type := List (String × α)

/-- Modelled from the spec: merge one provider's contributed entries into
the import table built so far; an entry overwrites any earlier registration
of the same name. -/
def applyTable {α : Type} (f : String → Option α) (t : SyscallTable α) :
    String → Option α :=
  t.foldl (fun g kv => fun n => if kv.1 = n then some kv.2 else g n) f

/-- Modelled from the spec: the dispatcher builds its import table by
iterating the configured provider list in order and merging contributed
entries. -/
def buildImports {α : Type} (ps : List (SyscallTable α)) : String → Option α :=
  ps.foldl applyTable (fun _ => none)

/-- The last registration of name `s` within one provider's table. -/
def lastEntry {α : Type} (t : SyscallTable α) (s : String) : Option α :=
  t.foldl (fun acc kv => if kv.1 = s then some kv.2 else acc) none

/-- Modelled from the spec (§7 error taxonomy): the host-fatal error kinds. -/
inductive HostError where
  | unsupportedSyscall (name : String)
  | memoryFault
  | instantiation
  deriving DecidableEq

/-- Modelled from the spec: resolving a module syscall against the merged
table of imports; a name no provider registered fails with
`UnsupportedSyscallError` rather than crashing the host. -/
def invokeSyscall {α : Type} (imports : String → Option α) (name : String) :
    Except HostError α :=
  match imports name with
  | some impl => .ok impl
  | none => .error (.unsupportedSyscall name)

/-- Modelled from the spec: the diagnostic message of a host-fatal error. -/
def describeHostError : HostError → String
  | .unsupportedSyscall n => "unsupported syscall: " ++ n
  | .memoryFault => "memory access outside linear memory bounds"
  | .instantiation => "module could not be compiled or instantiated"

/-- Modelled from the spec: a host-fatal error aborts the invocation and is
surfaced to the caller as a non-zero sentinel exit code plus a diagnostic
message. -/
def hostFatalResult (e : HostError) : Nat × String :=
  (1, describeHostError e)

/-- Modelled from the spec: bounds-check of a module-memory pointer/length
pair against the module's linear memory size; an out-of-range request fails
with `MemoryFaultError`. -/
def checkBounds (memSize ptr len : Nat) : Except HostError (Nat × Nat) :=
  if ptr + len ≤ memSize then .ok (ptr, len) else .error .memoryFault

/-- Modelled from the spec: dispatch of a syscall carrying a pointer/length
pair; the range is bounds-checked before any access, and only an in-range
request is forwarded to the provider implementation `impl`. -/
def dispatchPtrLen {α : Type} (memSize : Nat) (impl : Nat × Nat → α)
    (ptr len : Nat) : Except HostError α :=
  (checkBounds memSize ptr len).map impl

/-- Module linear memory, as a byte list. -/
def Mem : Type := List Nat

/-- The memory with bytes `ptr ..< ptr+len` set to zero (what a silent
zero-fill of the requested entropy buffer would produce). -/
def zeroFill (mem : Mem) (ptr len : Nat) : Mem :=
  (List.zip (List.range (List.length mem)) mem).map
    (fun ib => if ptr ≤ ib.1 ∧ ib.1 < ptr + len then 0 else ib.2)

/-- Modelled from the spec: servicing the entropy syscall against the merged
table of imports; with no entropy provider registered the call fails with
`UnsupportedSyscallError` and the module memory is left untouched. -/
def dispatchRandomGet (imports : String → Option (Mem → Mem)) (mem : Mem) :
    Except HostError Mem :=
  match imports "random_get" with
  | some f => .ok (f mem)
  | none => .error (.unsupportedSyscall "random_get")

/-! ## `start` (spec §4.3) -/

/-- Modelled from the spec: how one module invocation terminates — by calling
the process-exit syscall with a code, or by trapping (the trap carrying the
non-zero code the host reports). -/
inductive ModuleOutcome where
  | procExit (code : Nat)
  | trap (code : Nat)
  deriving DecidableEq

/-- Modelled from the spec: `start(instance)` blocks until the module either
calls the process-exit syscall or traps, and resolves to the numeric exit
code. -/
def start : ModuleOutcome → Nat
  | .procExit c => c
  | .trap c => c

/-! ## Public API layer, embedded from the source (`index.ts`) -/

/-- A `Binaryfile`: filename plus binary content (bytes modelled as a
string). -/
structure BinFile where
  name : String
  data : String
  deriving DecidableEq

/-- `ExifToolOptions`: `args`, `fetch`, `transform`, `config`.  The fetch
implementation and the transform are kept abstract in types `F` and
`String → T`. -/
structure ExifToolOptions (F T : Type) where
  args : Option (List String)
  fetch : Option F
  transform : Option (String → T)
  config : Option BinFile

/-- `ExifToolOutput`: the result union, flattened to one record; `data` is
`none` on the failure branch, `exitCode` is `none` for the TS `undefined`. -/
structure ExifToolOutput (α : Type) where
  success : Bool
  data : Option α
  error : String
  exitCode : Option Nat
  deriving DecidableEq

/-- The documentation of the failure branch of `ExifToolOutput`: a failed
result carries a non-zero exit code (or none at all). -/
def outputDocConformant {α : Type} (o : ExifToolOutput α) : Prop :=
  o.success = false → o.exitCode ≠ some 0

/-- `transformTags`: flatten the tag record into `-name=value` arguments,
one per array element for array-valued tags.  Primitive values are
represented by their rendered string. -/
inductive TagValue where
  | single (v : String)
  | multiple (vs : List String)
  deriving DecidableEq

/-- The tag record, in `Object.entries` order. -/
def ExifTags : Type := List (String × TagValue)

/-- Embeds `transformTags` from the source. -/
def transformTags (tags : ExifTags) : List String :=
  (tags.map (fun nv =>
    match nv.2 with
    | TagValue.single v => ["-" ++ nv.1 ++ "=" ++ v]
    | TagValue.multiple vs => vs.map (fun v => "-" ++ nv.1 ++ "=" ++ v))).flatten

/-- Embeds the options mutation of `parseMetadata`: when a config is given,
`options.args` is defaulted to `[]` and `-config=<name>` is pushed onto it in
place; without a config the options are untouched. -/
def parseMetadataOptionsAfter {F T : Type} (o : ExifToolOptions F T) :
    ExifToolOptions F T :=
  match o.config with
  | none => o
  | some cfg =>
      ⟨some ((o.args.getD []) ++ ["-config=" ++ cfg.name]), o.fetch, o.transform, o.config⟩

/-- Embeds the argument-vector construction of `parseMetadata`
(after the config mutation): `["zeroperl", "exiftool"].concat(options.args ||
[])` followed by `push("/" + file.name)`. -/
def parseMetadataArgv {F T : Type} (file : BinFile) (o : ExifToolOptions F T) :
    List String :=
  (["zeroperl", "exiftool"] ++ ((parseMetadataOptionsAfter o).args.getD []))
    ++ ["/" ++ file.name]

/-- Embeds the seed mapping `parseMetadata` passes to the `MemoryFileSystem`
constructor: the root path mapped to empty string content. -/
def parseMetadataInitSeed : List (String × String) := [("/", "")]

/-- Embeds the sequence of `addFile` calls `parseMetadata` performs, in
order: the exiftool script, then the input file at `"/" + file.name`
(unvalidated), then the config file when one is given. -/
def parseMetadataSeedOps (file : BinFile) (cfg : Option BinFile) (bin : String) :
    List (String × String) :=
  [("/exiftool", bin), ("/" ++ file.name, file.data)]
    ++ (match cfg with
        | some c => [("/" ++ c.name, c.data)]
        | none => [])

/-- The filesystem `parseMetadata` hands to the module at `start` time: the
constructor seed followed by the `addFile` calls, in source order. -/
def parseMetadataStartFS (file : BinFile) (cfg : Option BinFile) (bin : String) :
    Except FSError (MemoryFileSystem String) :=
  match (MemoryFileSystem.ofSeed parseMetadataInitSeed).addFile "/exiftool" bin with
  | .error e => .error e
  | .ok fs1 =>
    match fs1.addFile ("/" ++ file.name) file.data with
    | .error e => .error e
    | .ok fs2 =>
      match cfg with
      | none => .ok fs2
      | some c => fs2.addFile ("/" ++ c.name) c.data

/-- The optionally applied transform: `options.transform(stdout)` when a
transform is given, otherwise the raw stdout string through the unchecked
cast `as unknown as TReturn` (modelled by `rawCast`, the identity at
`T = String`). -/
def applyOptTransform {T : Type} (transform : Option (String → T))
    (rawCast : String → T) (s : String) : T :=
  match transform with
  | some f => f s
  | none => rawCast s

/-- Embeds the tail of `parseMetadata` after `wasi.start` resolves: a
non-zero exit code yields the failure record carrying the captured stderr;
exit code 0 yields the success record whose data is the (optionally
transformed) captured stdout. -/
def parseMetadataFinish {T : Type} (exitCode : Nat) (stdoutStr stderrStr : String)
    (transform : Option (String → T)) (rawCast : String → T) : ExifToolOutput T :=
  if exitCode ≠ 0 then ⟨false, none, stderrStr, some exitCode⟩
  else ⟨true, some (applyOptTransform transform rawCast stdoutStr), stderrStr,
        some exitCode⟩

/-- Embeds the temporary output path of `writeMetadata`:
`"/" + <uuid hex> + ".tmp"`. -/
def writeMetadataTempFile (uuidHex : String) : String :=
  "/" ++ uuidHex ++ ".tmp"

/-- Embeds the working argument list of `writeMetadata`: `options.args || []`
(aliased), then `-config=<name>` when a config is given, then the
tag-derived arguments. -/
def writeMetadataArgsWorking {F T : Type} (o : ExifToolOptions F T) (tags : ExifTags) :
    List String :=
  (o.args.getD [])
    ++ (match o.config with
        | some cfg => ["-config=" ++ cfg.name]
        | none => [])
    ++ transformTags tags

/-- Embeds the observable effect of `writeMetadata` on the caller's options:
since `const args = options.args || []` aliases the caller's array, every
push lands in `options.args` when it was supplied; when it was absent a
fresh array is used and the options are untouched. -/
def writeMetadataOptionsAfter {F T : Type} (o : ExifToolOptions F T) (tags : ExifTags) :
    ExifToolOptions F T :=
  match o.args with
  | none => o
  | some _ => ⟨some (writeMetadataArgsWorking o tags), o.fetch, o.transform, o.config⟩

/-- Embeds the tail of `writeMetadata` after `wasi.start` resolves: non-zero
exit fails with stderr; on exit 0 the temporary output path is looked up, a
missing or non-file node fails with the not-found message (and the exit code
still 0), and a file node succeeds with its content as data. -/
def writeMetadataFinish {α : Type} (exitCode : Nat) (stderrStr : String)
    (fs : MemoryFileSystem α) (tempFile : String) : ExifToolOutput α :=
  if exitCode ≠ 0 then ⟨false, none, stderrStr, some exitCode⟩
  else
    match fs.lookup tempFile with
    | some (VNode.file content) => ⟨true, some content, stderrStr, some exitCode⟩
    | _ => ⟨false, none, "Temporary output file not found: " ++ tempFile,
            some exitCode⟩

/-! ## Helper lemmas -/

theorem string_mk_data (s : String) : String.mk s.data = s := rfl

theorem isAbsolutePath_slash_append (s : String) : isAbsolutePath ("/" ++ s) = true := by
  simp [isAbsolutePath, String.data_append]

theorem addFile_ok_entries {α : Type} (fs fs' : MemoryFileSystem α) (p : String) (c : α)
    (h : fs.addFile p c = Except.ok fs') :
    fs'.entries = (p, VNode.file c) ::
      ((intermediateDirs p).map (fun d => (d, VNode.dir)) ++ fs.entries) := by
  unfold MemoryFileSystem.addFile at h
  split at h
  · simp at h
  · split at h
    · simp at h
    · injection h with h
      subst h
      rfl

theorem lookup_addFile_self {α : Type} (fs fs' : MemoryFileSystem α) (p : String) (c : α)
    (h : fs.addFile p c = Except.ok fs') :
    fs'.lookup p = some (VNode.file c) := by
  have he := addFile_ok_entries fs fs' p c h
  unfold MemoryFileSystem.lookup
  rw [he]
  simp [List.find?_cons]

theorem find?_keyMap_eq_none {α : Type} (ds : List String) (p : String) (hp : p ∉ ds) :
    ((ds.map (fun d => (d, (VNode.dir : VNode α)))).find? (fun e => e.1 = p)) = none := by
  induction ds with
  | nil => rfl
  | cons d ds ih =>
      have h1 : ¬ d = p := by
        intro h
        exact hp (by simp [h])
      have h2 : p ∉ ds := fun h => hp (List.mem_cons_of_mem d h)
      simp [List.find?_cons, h1, ih h2]

theorem find?_keyMap_isSome {α : Type} (ds : List String) (p : String) (hp : p ∈ ds) :
    ((ds.map (fun d => (d, (VNode.dir : VNode α)))).find? (fun e => e.1 = p)).isSome = true := by
  induction ds with
  | nil => cases hp
  | cons d ds ih =>
      by_cases h : d = p
      · simp [List.find?_cons, h]
      · have hmem : p ∈ ds := by
          rcases List.mem_cons.mp hp with h' | h'
          · exact absurd h'.symm h
          · exact h'
        have hs := ih hmem
        simp only [List.map_cons, List.find?_cons]
        simp [h, hs]
        exact hmem

theorem lookup_addFile_other {α : Type} (fs fs' : MemoryFileSystem α) (p q : String) (c : α)
    (h : fs.addFile q c = Except.ok fs') (hne : ¬ q = p) (hnd : p ∉ intermediateDirs q) :
    fs'.lookup p = fs.lookup p := by
  have he := addFile_ok_entries fs fs' q c h
  unfold MemoryFileSystem.lookup
  rw [he]
  simp [List.find?_cons, hne, List.find?_append, find?_keyMap_eq_none (intermediateDirs q) p hnd]

/-! ## Claim theorems -/

/-- C2: for every valid absolute path `p` and byte content `c`, `lookup p`
immediately after a successful `addFile p c` returns a node whose content
equals `c` exactly (round-trip, no transformation or loss). -/
theorem addFile_lookup_roundtrip {α : Type} (fs fs' : MemoryFileSystem α) (p : String) (c : α)
    (habs : isAbsolutePath p = true) (h : fs.addFile p c = Except.ok fs') :
    fs'.lookup p = some (VNode.file c) :=
  lookup_addFile_self fs fs' p c h

/-- C2 witness: a concrete round-trip through `addFile` and `lookup`. -/
theorem addFile_lookup_roundtrip_witness :
    (MemoryFileSystem.mk [("/img.jpg", VNode.file "bytes"), ("/", VNode.file "")]).lookup
      "/img.jpg" = some (VNode.file "bytes") :=
  addFile_lookup_roundtrip (MemoryFileSystem.mk [("/", VNode.file "")]) _ "/img.jpg" "bytes"
    (by decide) (by rfl)

/-- C7: `addFile path content` fails with `InvalidPathError` exactly when the
path is not absolute or collides with an existing directory node; on success
it inserts or replaces the file node and the intermediate directory paths all
resolve; and the public API seeds the `MemoryFileSystem` with the root path
mapped to empty string content and calls `addFile` with `"/" ++ file.name`
unvalidated (for every file name whatsoever). -/
theorem addFile_invalidPath_contract :
    (∀ (α : Type) (fs : MemoryFileSystem α) (p : String) (c : α),
        fs.addFile p c = Except.error FSError.invalidPath ↔
          (isAbsolutePath p = false ∨ fs.lookup p = some VNode.dir)) ∧
    (∀ (α : Type) (fs fs' : MemoryFileSystem α) (p : String) (c : α),
        fs.addFile p c = Except.ok fs' →
          fs'.lookup p = some (VNode.file c) ∧
          ∀ d ∈ intermediateDirs p, (fs'.lookup d).isSome = true) ∧
    parseMetadataInitSeed = [("/", "")] ∧
    (∀ (file : BinFile) (cfg : Option BinFile) (bin : String),
        ("/" ++ file.name, file.data) ∈ parseMetadataSeedOps file cfg bin) := by
  refine ⟨?_, ?_, rfl, ?_⟩
  · intro α fs p c
    constructor
    · intro h
      unfold MemoryFileSystem.addFile at h
      by_cases habs : isAbsolutePath p = false
      · exact Or.inl habs
      · rw [if_neg habs] at h
        split at h
        · next heq => exact Or.inr heq
        · simp at h
    · intro h
      unfold MemoryFileSystem.addFile
      rcases h with h | h
      · rw [if_pos h]
      · by_cases habs : isAbsolutePath p = false
        · rw [if_pos habs]
        · rw [if_neg habs, h]
  · intro α fs fs' p c h
    refine ⟨lookup_addFile_self fs fs' p c h, ?_⟩
    intro d hd
    have he := addFile_ok_entries fs fs' p c h
    unfold MemoryFileSystem.lookup
    rw [he]
    by_cases hdp : p = d
    · simp [List.find?_cons, hdp]
    · rcases Option.isSome_iff_exists.mp (find?_keyMap_isSome (α := α) (intermediateDirs p) d hd)
        with ⟨v, hv⟩
      simp [List.find?_cons, hdp, List.find?_append, hv]
  · intro file cfg bin
    cases cfg <;> simp [parseMetadataSeedOps]

/-- C7 witness: a non-absolute path is rejected with `InvalidPathError`. -/
theorem addFile_invalidPath_contract_witness :
    (MemoryFileSystem.mk ([] : List (String × VNode String))).addFile "nope.txt" "x" =
      Except.error FSError.invalidPath :=
  (addFile_invalidPath_contract.1 String (MemoryFileSystem.mk []) "nope.txt" "x").mpr
    (Or.inl (by decide))

/-- C8: when the module exits with code 0 but the temporary output path is
absent from the VFS or is a directory node, `writeMetadata` returns a failure
result (`success = false`, no data, the not-found message) whose `exitCode`
is 0, violating the result type's documentation that the failure branch
carries a non-zero exit code. -/
theorem writeMetadata_failure_with_zero_exit {α : Type} (fs : MemoryFileSystem α)
    (u err : String)
    (h : fs.lookup (writeMetadataTempFile u) = none ∨
         fs.lookup (writeMetadataTempFile u) = some VNode.dir) :
    writeMetadataFinish 0 err fs (writeMetadataTempFile u) =
      ⟨false, none, "Temporary output file not found: " ++ writeMetadataTempFile u, some 0⟩ ∧
    ¬ outputDocConformant (writeMetadataFinish 0 err fs (writeMetadataTempFile u)) := by
  have hres : writeMetadataFinish 0 err fs (writeMetadataTempFile u) =
      ⟨false, none, "Temporary output file not found: " ++ writeMetadataTempFile u, some 0⟩ := by
    unfold writeMetadataFinish
    rw [if_neg (by simp)]
    rcases h with h | h <;> rw [h]
  refine ⟨hres, ?_⟩
  intro hconf
  rw [hres] at hconf
  exact hconf rfl rfl

/-- C8 witness: the zero-exit failure result on an empty filesystem. -/
theorem writeMetadata_failure_with_zero_exit_witness :
    writeMetadataFinish 0 "" (MemoryFileSystem.mk ([] : List (String × VNode String)))
      (writeMetadataTempFile "u") =
      ⟨false, none, "Temporary output file not found: " ++ writeMetadataTempFile "u", some 0⟩ :=
  (writeMetadata_failure_with_zero_exit (MemoryFileSystem.mk []) "u" "" (Or.inl rfl)).1

theorem splitLines_eq_of_no_newline (l : List Char) (h : ∀ c ∈ l, c ≠ '\n') :
    splitLines l = ([], l) := by
  induction l with
  | nil => rfl
  | cons c cs ih =>
      have hc : ¬ c = '\n' := h c (List.mem_cons_self c cs)
      have ih' := ih (fun d hd => h d (List.mem_cons_of_mem c hd))
      simp [splitLines, ih', hc]

/-- C3: chunks "abc" then "def\n" flush exactly the one line "abcdef"; a single
chunk "line1\nline2\n" flushes two lines and retains no partial remainder; and
a chunk with no line terminator is appended to the pending partial line and
never flushed early. -/
theorem line_buffer_flush_semantics :
    feedAll ["abc", "def\n"] = (["abcdef"], "") ∧
    feedAll ["line1\nline2\n"] = (["line1", "line2"], "") ∧
    ∀ pending chunk : String, (∀ c ∈ pending.data, c ≠ '\n') →
      (∀ c ∈ chunk.data, c ≠ '\n') →
      feed pending chunk = ([], pending ++ chunk) := by
  refine ⟨by decide, by decide, ?_⟩
  intro pending chunk hp hc
  have hall : ∀ c ∈ pending.data ++ chunk.data, c ≠ '\n' := by
    intro c hm
    rcases List.mem_append.mp hm with hm | hm
    · exact hp c hm
    · exact hc c hm
  have hs := splitLines_eq_of_no_newline (pending.data ++ chunk.data) hall
  simp only [feed, hs, List.map_nil]
  rw [← String.data_append, string_mk_data]

/-- C3 witness: a terminator-free chunk is retained, not flushed. -/
theorem line_buffer_flush_semantics_witness :
    feed "ab" "cd" = ([], "ab" ++ "cd") :=
  line_buffer_flush_semantics.2.2 "ab" "cd" (by decide) (by decide)

theorem foldl_lastEntry_or {α : Type} (s : String) (t : SyscallTable α) (init : Option α) :
    t.foldl (fun acc kv => if kv.1 = s then some kv.2 else acc) init =
      (lastEntry t s).or init := by
  induction t generalizing init with
  | nil => simp [lastEntry]
  | cons kv t ih =>
      show List.foldl _ (if kv.1 = s then some kv.2 else init) t = _
      rw [ih]
      have h2 : lastEntry (kv :: t) s =
          (lastEntry t s).or (if kv.1 = s then some kv.2 else none) := by
        show List.foldl _ (if kv.1 = s then some kv.2 else none) t = _
        rw [ih]
      rw [h2, Option.or_assoc]
      by_cases h : kv.1 = s <;> simp [h]

theorem applyTable_eq {α : Type} (f : String → Option α) (t : SyscallTable α) (s : String) :
    applyTable f t s = (lastEntry t s).or (f s) := by
  induction t generalizing f with
  | nil => simp [applyTable, lastEntry]
  | cons kv t ih =>
      show applyTable (fun n => if kv.1 = n then some kv.2 else f n) t s = _
      rw [ih]
      have h2 : lastEntry (kv :: t) s =
          (lastEntry t s).or (if kv.1 = s then some kv.2 else none) :=
        foldl_lastEntry_or s t (if kv.1 = s then some kv.2 else none)
      rw [h2, Option.or_assoc]
      by_cases h : kv.1 = s <;> simp [h]

theorem foldl_applyTable_skip {α : Type} (qs : List (SyscallTable α)) (s : String)
    (hq : ∀ q ∈ qs, lastEntry q s = none) :
    ∀ f : String → Option α, qs.foldl applyTable f s = f s := by
  induction qs with
  | nil => intro f; rfl
  | cons q qs ih =>
      intro f
      have h1 : lastEntry q s = none := hq q (List.mem_cons_self q qs)
      have h2 : ∀ r ∈ qs, lastEntry r s = none := fun r hr => hq r (List.mem_cons_of_mem q hr)
      show qs.foldl applyTable (applyTable f q) s = f s
      rw [ih h2 (applyTable f q), applyTable_eq, h1, Option.none_or]

/-- C4: when two providers in the configured feature list both contribute an
implementation for the same syscall name, the dispatcher's merged import table
contains the later-registered provider's implementation, and that is the one
an invocation of the name resolves to (last-registered-wins, deterministic for
a fixed provider order since the merge is a pure function of it). -/
theorem dispatcher_last_registered_wins {α : Type} (ps qs : List (SyscallTable α))
    (p1 p2 : SyscallTable α) (s : String) (v1 v2 : α)
    (hp1 : p1 ∈ ps) (h1 : lastEntry p1 s = some v1)
    (h2 : lastEntry p2 s = some v2)
    (hq : ∀ q ∈ qs, lastEntry q s = none) :
    buildImports (ps ++ p2 :: qs) s = some v2 ∧
    invokeSyscall (buildImports (ps ++ p2 :: qs)) s = Except.ok v2 := by
  have hb : buildImports (ps ++ p2 :: qs) s = some v2 := by
    unfold buildImports
    rw [List.foldl_append]
    show qs.foldl applyTable (applyTable (ps.foldl applyTable (fun _ => none)) p2) s = some v2
    rw [foldl_applyTable_skip qs s hq, applyTable_eq, h2]
    rfl
  exact ⟨hb, by simp [invokeSyscall, hb]⟩

/-- C4 witness: two one-entry providers claiming "random_get"; the later wins. -/
theorem dispatcher_last_registered_wins_witness :
    buildImports [[("random_get", 1)], [("random_get", 2)]] "random_get" = some 2 :=
  (dispatcher_last_registered_wins [[("random_get", 1)]] [] [("random_get", 1)]
    [("random_get", 2)] "random_get" 1 2 (by simp) (by decide) (by decide) (by simp)).1

/-- C5: omitting a capability provider makes any module call into that
capability fail with `UnsupportedSyscallError`, aborting the invocation with a
non-zero host-reported exit rather than crashing the host or silently
succeeding; in particular an entropy call with no entropy provider registered
yields that abort and never a silently zero-filled buffer. -/
theorem omitted_provider_unsupported_syscall (ps : List (SyscallTable (Mem → Mem)))
    (hq : ∀ t ∈ ps, lastEntry t "random_get" = none) :
    invokeSyscall (buildImports ps) "random_get" =
      Except.error (HostError.unsupportedSyscall "random_get") ∧
    (hostFatalResult (HostError.unsupportedSyscall "random_get")).1 ≠ 0 ∧
    (∀ mem : Mem,
      dispatchRandomGet (buildImports ps) mem =
        Except.error (HostError.unsupportedSyscall "random_get")) ∧
    (∀ (mem : Mem) (ptr len : Nat),
      dispatchRandomGet (buildImports ps) mem ≠ Except.ok (zeroFill mem ptr len)) := by
  have hnone : buildImports ps "random_get" = none := by
    unfold buildImports
    exact foldl_applyTable_skip ps "random_get" hq (fun _ => none)
  refine ⟨by simp [invokeSyscall, hnone], by decide, ?_, ?_⟩
  · intro mem
    simp [dispatchRandomGet, hnone]
  · intro mem ptr len
    simp [dispatchRandomGet, hnone]

/-- C5 witness: the empty feature list rejects the entropy syscall. -/
theorem omitted_provider_unsupported_syscall_witness :
    invokeSyscall (buildImports ([] : List (SyscallTable (Mem → Mem)))) "random_get" =
      Except.error (HostError.unsupportedSyscall "random_get") :=
  (omitted_provider_unsupported_syscall [] (by simp)).1

/-- C6: every module-memory pointer/length pair is bounds-checked against the
linear memory size before any access; an out-of-range request fails with
`MemoryFaultError`, is never forwarded to a provider (the outcome is the same
whatever the provider implementation is), and the fault is host-fatal: a
non-zero exit with a diagnostic message. -/
theorem bounds_check_memory_fault {α : Type} (memSize ptr len : Nat)
    (h : memSize < ptr + len) (impl impl' : Nat × Nat → α) :
    checkBounds memSize ptr len = Except.error HostError.memoryFault ∧
    dispatchPtrLen memSize impl ptr len = Except.error HostError.memoryFault ∧
    dispatchPtrLen memSize impl ptr len = dispatchPtrLen memSize impl' ptr len ∧
    (hostFatalResult HostError.memoryFault).1 ≠ 0 ∧
    ¬ (hostFatalResult HostError.memoryFault).2 = "" := by
  have hc : checkBounds memSize ptr len = Except.error HostError.memoryFault := by
    unfold checkBounds
    rw [if_neg (by omega)]
  refine ⟨hc, ?_, ?_, by decide, by decide⟩
  · simp [dispatchPtrLen, hc, Except.map]
  · simp [dispatchPtrLen, hc, Except.map]

/-- C6 witness: a 2-byte read at offset 3 of a 4-byte memory faults. -/
theorem bounds_check_memory_fault_witness :
    dispatchPtrLen 4 (fun pl => pl.1) 3 2 = Except.error HostError.memoryFault :=
  (bounds_check_memory_fault 4 3 2 (by decide) (fun pl => pl.1) (fun pl => pl.1)).2.1

/-- C1: `start` resolves to the module's numeric exit code — 0 when the module
calls process-exit with 0, the non-zero code when it traps or exits non-zero —
and `parseMetadata` returns success with the (optionally transformed) captured
stdout exactly when that code is 0, and failure with no data and the captured
stderr whenever it is non-zero. -/
theorem start_exit_code_parse_result {T : Type}
    (transform : Option (String → T)) (rawCast : String → T) (out err : String) :
    start (ModuleOutcome.procExit 0) = 0 ∧
    (∀ c : Nat, c ≠ 0 →
      start (ModuleOutcome.procExit c) = c ∧ start (ModuleOutcome.trap c) = c) ∧
    (∀ outcome : ModuleOutcome, start outcome = 0 →
      parseMetadataFinish (start outcome) out err transform rawCast =
        ⟨true, some (applyOptTransform transform rawCast out), err, some 0⟩) ∧
    (∀ outcome : ModuleOutcome, start outcome ≠ 0 →
      parseMetadataFinish (start outcome) out err transform rawCast =
        ⟨false, none, err, some (start outcome)⟩) ∧
    (∀ outcome : ModuleOutcome,
      (parseMetadataFinish (start outcome) out err transform rawCast).success = true ↔
        start outcome = 0) := by
  refine ⟨rfl, fun c _ => ⟨rfl, rfl⟩, ?_, ?_, ?_⟩
  · intro oc h
    simp [parseMetadataFinish, h]
  · intro oc h
    simp [parseMetadataFinish, h]
  · intro oc
    by_cases h : start oc = 0
    · simp [parseMetadataFinish, h]
    · simp [parseMetadataFinish, h]

/-- C1 witness: a clean exit yields the success record; a trap with code 2
yields the failure record carrying stderr and exit code 2. -/
theorem start_exit_code_parse_result_witness :
    parseMetadataFinish (start (ModuleOutcome.procExit 0)) "OUT" "ERR"
      (none : Option (String → String)) id =
      ⟨true, some (applyOptTransform (none : Option (String → String)) id "OUT"),
       "ERR", some 0⟩ ∧
    parseMetadataFinish (start (ModuleOutcome.trap 2)) "OUT" "ERR"
      (none : Option (String → String)) id =
      ⟨false, none, "ERR", some (start (ModuleOutcome.trap 2))⟩ :=
  ⟨(start_exit_code_parse_result none id "OUT" "ERR").2.2.1 (ModuleOutcome.procExit 0) rfl,
   (start_exit_code_parse_result none id "OUT" "ERR").2.2.2.1 (ModuleOutcome.trap 2)
     (by decide)⟩

/-- C9: when a config is given, `parseMetadata` pushes `-config=<name>` onto
the caller-supplied `options.args` in place; `writeMetadata` aliases
`options.args` as its working array and additionally appends the tag-derived
arguments; no other field of the options is modified. -/
theorem options_args_mutation {F T : Type} (o : ExifToolOptions F T) (cfg : BinFile)
    (l : List String) (tags : ExifTags)
    (hc : o.config = some cfg) (ha : o.args = some l) :
    (parseMetadataOptionsAfter o).args = some (l ++ ["-config=" ++ cfg.name]) ∧
    (parseMetadataOptionsAfter o).fetch = o.fetch ∧
    (parseMetadataOptionsAfter o).transform = o.transform ∧
    (parseMetadataOptionsAfter o).config = o.config ∧
    (writeMetadataOptionsAfter o tags).args =
      some (l ++ ["-config=" ++ cfg.name] ++ transformTags tags) ∧
    (writeMetadataOptionsAfter o tags).fetch = o.fetch ∧
    (writeMetadataOptionsAfter o tags).transform = o.transform ∧
    (writeMetadataOptionsAfter o tags).config = o.config := by
  simp [parseMetadataOptionsAfter, writeMetadataOptionsAfter, writeMetadataArgsWorking,
        hc, ha]

/-- C9 witness: a concrete options record with supplied args and config. -/
theorem options_args_mutation_witness :
    (parseMetadataOptionsAfter
      (⟨some ["-n"], none, none, some (BinFile.mk "my.cfg" "C")⟩ :
        ExifToolOptions Unit Unit)).args = some (["-n"] ++ ["-config=" ++ "my.cfg"]) :=
  (options_args_mutation _ (BinFile.mk "my.cfg" "C") ["-n"] [] rfl rfl).1

/-- C10 (amended): the argument vector `parseMetadata` delivers is exactly
["zeroperl", "exiftool"] followed by `options.args` (with the config flag
appended when a config is given) and ending with "/" + file.name; and the
input file's bytes sit in the VFS at that same path in the filesystem the
module is started against, provided the config file, when one is given,
neither targets that same path nor shadows it as an intermediate directory —
the config is added after the input file, so a config named like the input
overwrites its bytes before `start`. -/
theorem parse_metadata_argv_and_vfs {F T : Type} (file : BinFile) (o : ExifToolOptions F T)
    (bin : String) :
    (o.config = none →
      parseMetadataArgv file o =
        ["zeroperl", "exiftool"] ++ o.args.getD [] ++ ["/" ++ file.name]) ∧
    (∀ cfg, o.config = some cfg →
      parseMetadataArgv file o =
        ["zeroperl", "exiftool"] ++ (o.args.getD [] ++ ["-config=" ++ cfg.name])
          ++ ["/" ++ file.name]) ∧
    (parseMetadataArgv file o).getLast? = some ("/" ++ file.name) ∧
    (∀ fs, parseMetadataStartFS file none bin = Except.ok fs →
      fs.lookup ("/" ++ file.name) = some (VNode.file file.data)) ∧
    (∀ cfg fs, ¬ ("/" ++ cfg.name) = ("/" ++ file.name) →
      ("/" ++ file.name) ∉ intermediateDirs ("/" ++ cfg.name) →
      parseMetadataStartFS file (some cfg) bin = Except.ok fs →
      fs.lookup ("/" ++ file.name) = some (VNode.file file.data)) := by
  refine ⟨?_, ?_, ?_, ?_, ?_⟩
  · intro h
    simp [parseMetadataArgv, parseMetadataOptionsAfter, h]
  · intro cfg h
    simp [parseMetadataArgv, parseMetadataOptionsAfter, h]
  · exact List.getLast?_concat _
  · intro fs h
    unfold parseMetadataStartFS at h
    split at h
    · simp at h
    · rename_i fs1 h1
      split at h
      · simp at h
      · rename_i fs2 h2
        injection h with h
        subst h
        exact lookup_addFile_self _ _ _ _ h2
  · intro cfg fs hne hnd h
    unfold parseMetadataStartFS at h
    split at h
    · simp at h
    · rename_i fs1 h1
      split at h
      · simp at h
      · rename_i fs2 h2
        rw [lookup_addFile_other fs2 fs ("/" ++ file.name) ("/" ++ cfg.name) cfg.data h
              hne hnd]
        exact lookup_addFile_self _ _ _ _ h2

/-- C10 counterexample: the original claim is false when the config file is
named like the input file — `parseMetadata` adds the config after the input,
so the VFS handed to `start` maps "/" + file.name to the config's bytes, not
the input file's. -/
theorem parse_metadata_config_overwrites_input :
    parseMetadataStartFS (BinFile.mk "img.jpg" "INPUT")
      (some (BinFile.mk "img.jpg" "CFG")) "B" =
      Except.ok (MemoryFileSystem.mk
        [("/img.jpg", VNode.file "CFG"), ("/img.jpg", VNode.file "INPUT"),
         ("/exiftool", VNode.file "B"), ("/", VNode.file "")]) ∧
    (MemoryFileSystem.mk
        [("/img.jpg", VNode.file "CFG"), ("/img.jpg", VNode.file "INPUT"),
         ("/exiftool", VNode.file "B"), ("/", VNode.file "")]).lookup ("/" ++ "img.jpg") =
      some (VNode.file "CFG") ∧
    ¬ (MemoryFileSystem.mk
        [("/img.jpg", VNode.file "CFG"), ("/img.jpg", VNode.file "INPUT"),
         ("/exiftool", VNode.file "B"), ("/", VNode.file "")]).lookup ("/" ++ "img.jpg") =
      some (VNode.file "INPUT") := by
  refine ⟨by rfl, by rfl, by decide⟩

/-- C10 witness: the built VFS holds the input bytes at "/" + file.name. -/
theorem parse_metadata_argv_and_vfs_witness :
    (MemoryFileSystem.mk [("/img.jpg", VNode.file "DATA"), ("/exiftool", VNode.file "B"),
      ("/", VNode.file "")]).lookup ("/" ++ "img.jpg") = some (VNode.file "DATA") :=
  (parse_metadata_argv_and_vfs (F := Unit) (T := Unit) (BinFile.mk "img.jpg" "DATA")
    ⟨some ["-json"], none, none, none⟩ "B").2.2.2.1
    (MemoryFileSystem.mk [("/img.jpg", VNode.file "DATA"), ("/exiftool", VNode.file "B"),
      ("/", VNode.file "")]) (by rfl)

end ExifWasi
